import Mathlib

/-!
Shallow embedding of the PARA-fect repository's path-validation and
release-bump logic.

Sources embedded:
* `src/scripts/release.mjs` — the settings module (`ParaManagerSettings`,
  `validateParaFolderPath`, `setupFolderPathInput`'s blur handler) and the
  release script's bump-type handling (`BUMP_TYPE`, `newVersion`).
* `isNestedPath` is imported by the settings module from `./utils`, whose
  source is not in the repository snapshot; it is modelled from the spec
  (see its doc comment).

JavaScript strings are embedded as Lean `String`; `str.split("/")` as
`String.splitOn "/"` (both return `[""]` on the empty string and keep empty
segments); `===` on strings as `=`; the `string | null` return type of
`validateParaFolderPath` as `Option String` with `none` for `null`.
-/

namespace Para

/-- The four PARA folder fields, in the order of `allFields` in the source:
`["projectsPath", "areasPath", "resourcesPath", "archivePath"]`. -/
inductive ParaFolderField where
  | projectsPath
  | areasPath
  | resourcesPath
  | archivePath
  deriving DecidableEq, Fintype

open ParaFolderField

/-- `interface ParaManagerSettings` from the settings module. -/
structure ParaManagerSettings where
  projectsPath : String
  areasPath : String
  resourcesPath : String
  archivePath : String
  focusAfterArchive : Bool
  confirmBeforeArchive : Bool
  deriving DecidableEq

/-- `DEFAULT_SETTINGS` from the settings module. -/
def DEFAULT_SETTINGS : ParaManagerSettings :=
  { projectsPath := "Projects"
    areasPath := "Areas"
    resourcesPath := "Resources"
    archivePath := "Archive"
    focusAfterArchive := true
    confirmBeforeArchive := false }

/-- `FOLDER_NAMES` from the settings module. -/
def FOLDER_NAMES : ParaFolderField → String
  | projectsPath => "Projects"
  | areasPath => "Areas"
  | resourcesPath => "Resources"
  | archivePath => "Archive"

/-- `FOLDER_DEFAULTS` from the settings module. -/
def FOLDER_DEFAULTS : ParaFolderField → String
  | projectsPath => "Projects"
  | areasPath => "Areas"
  | resourcesPath => "Resources"
  | archivePath => "Archive"

/-- Field access `settings[field]` for a `ParaFolderField` key. -/
def fieldOf (s : ParaManagerSettings) : ParaFolderField → String
  | projectsPath => s.projectsPath
  | areasPath => s.areasPath
  | resourcesPath => s.resourcesPath
  | archivePath => s.archivePath

/-- Field update `settings[field] = v` for a `ParaFolderField` key. -/
def setFieldOf (s : ParaManagerSettings) : ParaFolderField → String → ParaManagerSettings
  | projectsPath, v => { s with projectsPath := v }
  | areasPath, v => { s with areasPath := v }
  | resourcesPath, v => { s with resourcesPath := v }
  | archivePath, v => { s with archivePath := v }

/-- Helper for `segmentsOf`: split a character list on `'/'`, with `acc` the
(reversed) current segment. -/
def splitSlashAux : List Char → List Char → List (List Char)
  | [], acc => [acc.reverse]
  | c :: rest, acc =>
    if c = '/' then acc.reverse :: splitSlashAux rest []
    else splitSlashAux rest (c :: acc)

/-- JavaScript `path.split('/')`: the `/`-delimited segments of a path, empty
segments kept (`""` splits to `[""]`, `"a//b"` to `["a", "", "b"]`). -/
def segmentsOf (s : String) : List String :=
  (splitSlashAux s.data []).map String.mk

/-- Modelled from the spec: `isNestedPath` is imported by the settings module
from `./utils`, whose source file is missing from the repository snapshot.
The spec says: "path A nests with path B if and only if A and B, when split
on `/`, are such that one sequence of segments is a strict prefix of the
other sequence of segments (not a string-prefix of the concatenated path)". -/
def isNestedPath (a b : String) : Bool :=
  ((segmentsOf a).isPrefixOf (segmentsOf b)
      && decide ((segmentsOf a).length < (segmentsOf b).length))
    || ((segmentsOf b).isPrefixOf (segmentsOf a)
      && decide ((segmentsOf b).length < (segmentsOf a).length))

/-- `allFields` from `validateParaFolderPath`. -/
def allFields : List ParaFolderField :=
  [projectsPath, areasPath, resourcesPath, archivePath]

/-- The equality-conflict message
`` `${thisName} folder cannot be the same as ${otherName} folder` ``. -/
def samePathMsg (thisName otherName : String) : String :=
  thisName ++ " folder cannot be the same as " ++ otherName ++ " folder"

/-- The nesting-conflict message
`` `${thisName} folder cannot be nested with ${otherName} folder` ``. -/
def nestedPathMsg (thisName otherName : String) : String :=
  thisName ++ " folder cannot be nested with " ++ otherName ++ " folder"

/-- The `for (const otherField of otherFields)` loop body of
`validateParaFolderPath`: equality check first, then nesting check, returning
at the first conflict. -/
def validateLoop (newPath : String) (field : ParaFolderField)
    (settings : ParaManagerSettings) : List ParaFolderField → Option String
  | [] => none
  | otherField :: rest =>
    if newPath = fieldOf settings otherField then
      some (samePathMsg (FOLDER_NAMES field) (FOLDER_NAMES otherField))
    else if isNestedPath newPath (fieldOf settings otherField) then
      some (nestedPathMsg (FOLDER_NAMES field) (FOLDER_NAMES otherField))
    else
      validateLoop newPath field settings rest

/-- `validateParaFolderPath` from the settings module: iterate over
`allFields.filter((f) => f !== field)` and return the first conflict message,
or `none` (the source's `null`) when valid. -/
def validateParaFolderPath (newPath : String) (field : ParaFolderField)
    (settings : ParaManagerSettings) : Option String :=
  validateLoop newPath field settings (allFields.filter (fun g => g != field))

/-- The three roles other than `field`, written out explicitly in the
`allFields` order; used to state iteration-order facts. -/
def otherRoles : ParaFolderField → List ParaFolderField
  | projectsPath => [areasPath, resourcesPath, archivePath]
  | areasPath => [projectsPath, resourcesPath, archivePath]
  | resourcesPath => [projectsPath, areasPath, archivePath]
  | archivePath => [projectsPath, areasPath, resourcesPath]

/-- Leading-whitespace removal, the first half of JavaScript
`value.trim()`. -/
def trimLeft (cs : List Char) : List Char :=
  cs.dropWhile Char.isWhitespace

/-- Trailing-whitespace removal, the second half of JavaScript
`value.trim()`. -/
def trimRight (cs : List Char) : List Char :=
  (cs.reverse.dropWhile Char.isWhitespace).reverse

/-- JavaScript `value.trim()` (whitespace on both ends removed; the embedding
uses `Char.isWhitespace` for the JS whitespace class). -/
def jsTrim (v : String) : String :=
  String.mk (trimRight (trimLeft v.data))

/-- JavaScript `.replace(/\/+$/, "")`: strip all trailing `/` characters. -/
def stripTrailingSlashes (v : String) : String :=
  String.mk ((v.data.reverse.dropWhile (fun c => c = '/')).reverse)

/-- The normalization in `setupFolderPathInput`'s blur handler:
`value.trim().replace(/\/+$/, "") || FOLDER_DEFAULTS[field]` (JS `||` takes
the default exactly when the trimmed-and-stripped string is empty). -/
def normalizeInput (field : ParaFolderField) (value : String) : String :=
  if stripTrailingSlashes (jsTrim value) = "" then FOLDER_DEFAULTS field
  else stripTrailingSlashes (jsTrim value)

/-- The settings-state effect of `setupFolderPathInput`'s blur handler:
normalize the raw input, validate it, and either keep the settings unchanged
(error branch) or commit the normalized value into the edited field. -/
def blurStep (settings : ParaManagerSettings) (field : ParaFolderField)
    (value : String) : ParaManagerSettings :=
  match validateParaFolderPath (normalizeInput field value) field settings with
  | some _ => settings
  | none => setFieldOf settings field (normalizeInput field value)

/-- The PathAssignment invariant from the spec's data model: no two roles hold
equal path strings, and no role's path nests with another role's path. -/
def settingsValid (s : ParaManagerSettings) : Prop :=
  ∀ f g : ParaFolderField, f ≠ g →
    fieldOf s f ≠ fieldOf s g ∧ isNestedPath (fieldOf s f) (fieldOf s g) = false

instance (s : ParaManagerSettings) : Decidable (settingsValid s) := by
  unfold settingsValid; infer_instance

/-! ### Release script: bump-type handling -/

/-- `BUMP_TYPE = process.argv[2] || 'patch'` from the release script: a
missing (`none`) or empty (falsy) second argument defaults to `"patch"`. -/
def bumpTypeOf (argv2 : Option String) : String :=
  match argv2 with
  | none => "patch"
  | some s => if s = "" then "patch" else s

/-- The `switch (BUMP_TYPE)` computing `newVersion` in the release script;
`none` for any bump type outside the three cases (unreachable after the
guard in `releaseStep`). -/
def newVersion (bumpType : String) (major minor patch : Nat) : Option String :=
  match bumpType with
  | "major" => some (toString (major + 1) ++ ".0.0")
  | "minor" => some (toString major ++ "." ++ toString (minor + 1) ++ ".0")
  | "patch" => some (toString major ++ "." ++ toString minor ++ "." ++ toString (patch + 1))
  | _ => none

/-- The release script's control flow around the bump: the
`['patch','minor','major'].includes(BUMP_TYPE)` guard runs first and exits
with code 1 on failure (before the manifest version is consulted); otherwise
the new version string is computed from the current version triple. -/
def releaseStep (argv2 : Option String) (ver : Nat × Nat × Nat) : Except Nat String :=
  if ["patch", "minor", "major"].contains (bumpTypeOf argv2) then
    match newVersion (bumpTypeOf argv2) ver.1 ver.2.1 ver.2.2 with
    | some v => Except.ok v
    | none => Except.error 1
  else
    Except.error 1

/-! ### Helper lemmas -/

theorem fieldOf_setFieldOf_self (s : ParaManagerSettings) (f : ParaFolderField)
    (v : String) : fieldOf (setFieldOf s f v) f = v := by
  cases f <;> rfl

theorem fieldOf_setFieldOf_ne (s : ParaManagerSettings) (f g : ParaFolderField)
    (v : String) (h : g ≠ f) : fieldOf (setFieldOf s f v) g = fieldOf s g := by
  cases f <;> cases g <;> first | rfl | exact absurd rfl h

theorem setFieldOf_focus (s : ParaManagerSettings) (f : ParaFolderField)
    (v : String) : (setFieldOf s f v).focusAfterArchive = s.focusAfterArchive := by
  cases f <;> rfl

theorem setFieldOf_confirm (s : ParaManagerSettings) (f : ParaFolderField)
    (v : String) : (setFieldOf s f v).confirmBeforeArchive = s.confirmBeforeArchive := by
  cases f <;> rfl

theorem mem_filter_ne (f g : ParaFolderField) :
    g ∈ allFields.filter (fun h => h != f) ↔ g ≠ f := by
  cases f <;> cases g <;> decide

theorem filter_ne_eq_otherRoles (f : ParaFolderField) :
    allFields.filter (fun g => g != f) = otherRoles f := by
  cases f <;> rfl

theorem validateLoop_eq_none_iff (p : String) (f : ParaFolderField)
    (s : ParaManagerSettings) (L : List ParaFolderField) :
    validateLoop p f s L = none ↔
      ∀ g ∈ L, p ≠ fieldOf s g ∧ isNestedPath p (fieldOf s g) = false := by
  induction L with
  | nil => simp [validateLoop]
  | cons g L ih =>
    by_cases h1 : p = fieldOf s g
    · simp [validateLoop, h1]
    · by_cases h2 : isNestedPath p (fieldOf s g) = true
      · simp [validateLoop, h1, h2]
      · rw [Bool.not_eq_true] at h2
        simp [validateLoop, h1, h2, ih]

theorem validateLoop_congr (p : String) (f : ParaFolderField)
    (s s' : ParaManagerSettings) (L : List ParaFolderField)
    (h : ∀ g ∈ L, fieldOf s' g = fieldOf s g) :
    validateLoop p f s' L = validateLoop p f s L := by
  induction L with
  | nil => rfl
  | cons g L ih =>
    have hg : fieldOf s' g = fieldOf s g := h g (by simp)
    simp only [validateLoop, hg]
    rw [ih (fun g hgL => h g (by simp [hgL]))]

theorem validateLoop_eq_find (p : String) (f : ParaFolderField)
    (s : ParaManagerSettings) (L : List ParaFolderField) :
    validateLoop p f s L =
      (L.find? (fun g => p == fieldOf s g || isNestedPath p (fieldOf s g))).map
        (fun g =>
          if p = fieldOf s g then samePathMsg (FOLDER_NAMES f) (FOLDER_NAMES g)
          else nestedPathMsg (FOLDER_NAMES f) (FOLDER_NAMES g)) := by
  induction L with
  | nil => rfl
  | cons g L ih =>
    by_cases h1 : p = fieldOf s g
    · have hb : (p == fieldOf s g) = true := beq_iff_eq.mpr h1
      simp [validateLoop, List.find?, h1, hb]
    · have hb : (p == fieldOf s g) = false := beq_eq_false_iff_ne.mpr h1
      by_cases h2 : isNestedPath p (fieldOf s g) = true
      · simp [validateLoop, List.find?, h1, hb, h2]
      · rw [Bool.not_eq_true] at h2
        simp [validateLoop, List.find?, h1, hb, h2]
        exact ih

theorem validateLoop_shape (p : String) (f : ParaFolderField)
    (s : ParaManagerSettings) (L : List ParaFolderField) :
    validateLoop p f s L = none
      ∨ ∃ g ∈ L,
          validateLoop p f s L = some (samePathMsg (FOLDER_NAMES f) (FOLDER_NAMES g))
          ∨ validateLoop p f s L = some (nestedPathMsg (FOLDER_NAMES f) (FOLDER_NAMES g)) := by
  induction L with
  | nil => exact Or.inl rfl
  | cons g L ih =>
    by_cases h1 : p = fieldOf s g
    · exact Or.inr ⟨g, by simp, Or.inl (by simp [validateLoop, h1])⟩
    · by_cases h2 : isNestedPath p (fieldOf s g) = true
      · exact Or.inr ⟨g, by simp, Or.inr (by simp [validateLoop, h1, h2])⟩
      · have hstep : validateLoop p f s (g :: L) = validateLoop p f s L := by
          simp [validateLoop, h1, h2]
        rcases ih with h | ⟨g', hg', hcase⟩
        · exact Or.inl (hstep.trans h)
        · exact Or.inr ⟨g', by simp [hg'], by rw [hstep]; exact hcase⟩

theorem isNestedPath_comm (a b : String) : isNestedPath a b = isNestedPath b a := by
  unfold isNestedPath
  exact Bool.or_comm _ _

theorem isPrefixOf_strict_iff (l₁ l₂ : List String) :
    (l₁.isPrefixOf l₂ && decide (l₁.length < l₂.length)) = true ↔
      ∃ t, t ≠ [] ∧ l₁ ++ t = l₂ := by
  rw [Bool.and_eq_true, decide_eq_true_eq, List.isPrefixOf_iff_prefix]
  constructor
  · rintro ⟨⟨t, rfl⟩, hlen⟩
    refine ⟨t, ?_, rfl⟩
    intro ht
    subst ht
    simp at hlen
  · rintro ⟨t, ht, rfl⟩
    refine ⟨⟨t, rfl⟩, ?_⟩
    have : 0 < t.length := List.length_pos.mpr ht
    simp [List.length_append]
    omega

theorem isNestedPath_true_iff (a b : String) :
    isNestedPath a b = true ↔
      (∃ t, t ≠ [] ∧ segmentsOf a ++ t = segmentsOf b)
        ∨ (∃ t, t ≠ [] ∧ segmentsOf b ++ t = segmentsOf a) := by
  unfold isNestedPath
  rw [Bool.or_eq_true, isPrefixOf_strict_iff, isPrefixOf_strict_iff]

/-! ### Claim theorems -/

/-- C1: for every role `f`, candidate path `p`, and assignment `s`,
`validateParaFolderPath p f s` returns `none` (Valid) iff `p` is not equal
to, and does not nest with, the path of any of the three roles other than
`f`; the value `s` holds for `f` itself is ignored (overwriting it does not
change the result). -/
theorem c1_validate_valid_iff (p : String) (f : ParaFolderField)
    (s : ParaManagerSettings) :
    (validateParaFolderPath p f s = none ↔
      ∀ g : ParaFolderField, g ≠ f →
        p ≠ fieldOf s g ∧ isNestedPath p (fieldOf s g) = false)
    ∧ (∀ x : String,
        validateParaFolderPath p f (setFieldOf s f x) = validateParaFolderPath p f s) := by
  constructor
  · rw [validateParaFolderPath, validateLoop_eq_none_iff]
    constructor
    · intro h g hg
      exact h g ((mem_filter_ne f g).mpr hg)
    · intro h g hg
      exact h g ((mem_filter_ne f g).mp hg)
  · intro x
    unfold validateParaFolderPath
    exact validateLoop_congr p f s (setFieldOf s f x) _
      (fun g hg => fieldOf_setFieldOf_ne s f g x ((mem_filter_ne f g).mp hg))

/-- Witness for C1 at a concrete input: the candidate `"Notes"` conflicts
with no default path, so validation returns `none`. -/
theorem c1_validate_valid_iff_witness :
    validateParaFolderPath "Notes" ParaFolderField.projectsPath DEFAULT_SETTINGS = none :=
  (c1_validate_valid_iff "Notes" ParaFolderField.projectsPath DEFAULT_SETTINGS).1.mpr
    (by decide)

/-- C2: `isNestedPath a b` holds iff the `/`-segment sequence of one path is
a strict prefix of the other's (segment-wise, not raw string prefix); in
particular validating `"Proj"` against an assignment whose other role holds
`"Projects"` is Valid, while `"Projects/Archive"` yields a nesting
conflict. -/
theorem c2_nesting_is_segment_strict_pre (a b : String) :
    (isNestedPath a b = true ↔
      (∃ t, t ≠ [] ∧ segmentsOf a ++ t = segmentsOf b)
        ∨ (∃ t, t ≠ [] ∧ segmentsOf b ++ t = segmentsOf a))
    ∧ validateParaFolderPath "Proj" ParaFolderField.projectsPath
        { DEFAULT_SETTINGS with areasPath := "Projects" } = none
    ∧ validateParaFolderPath "Projects/Archive" ParaFolderField.projectsPath
        { DEFAULT_SETTINGS with areasPath := "Projects" }
        = some (nestedPathMsg "Projects" "Areas") :=
  ⟨isNestedPath_true_iff a b, by decide, by decide⟩

/-- C3: validation iterates over the three non-edited roles in the fixed
`allFields` order (Projects, Areas, Resources, Archive with the edited role
removed), checking equality before nesting, and reports exactly the first
conflicting role found (`List.find?` on `otherRoles`), with equality taking
precedence over nesting for that role. -/
theorem c3_first_conflict_in_order (p : String) (f : ParaFolderField)
    (s : ParaManagerSettings) :
    allFields = [ParaFolderField.projectsPath, ParaFolderField.areasPath,
      ParaFolderField.resourcesPath, ParaFolderField.archivePath]
    ∧ allFields.filter (fun g => g != f) = otherRoles f
    ∧ validateParaFolderPath p f s =
        ((otherRoles f).find? (fun g => p == fieldOf s g || isNestedPath p (fieldOf s g))).map
          (fun g =>
            if p = fieldOf s g then samePathMsg (FOLDER_NAMES f) (FOLDER_NAMES g)
            else nestedPathMsg (FOLDER_NAMES f) (FOLDER_NAMES g)) := by
  refine ⟨rfl, filter_ne_eq_otherRoles f, ?_⟩
  rw [validateParaFolderPath, filter_ne_eq_otherRoles]
  exact validateLoop_eq_find p f s (otherRoles f)

/-- C4: validation always terminates in one of exactly three shapes — `none`
(Valid), the `SamePath` message, or the `NestedPath` message, each conflict
message naming the edited role and a conflicting other role; the embedding is
a total function, so no input raises an exception. -/
theorem c4_result_trichotomy (p : String) (f : ParaFolderField)
    (s : ParaManagerSettings) :
    validateParaFolderPath p f s = none
    ∨ ∃ g, g ∈ otherRoles f ∧ g ≠ f ∧
        (validateParaFolderPath p f s = some (samePathMsg (FOLDER_NAMES f) (FOLDER_NAMES g))
          ∨ validateParaFolderPath p f s = some (nestedPathMsg (FOLDER_NAMES f) (FOLDER_NAMES g))) := by
  rw [validateParaFolderPath, filter_ne_eq_otherRoles]
  rcases validateLoop_shape p f s (otherRoles f) with h | ⟨g, hg, hcase⟩
  · exact Or.inl h
  · refine Or.inr ⟨g, hg, ?_, hcase⟩
    exact (mem_filter_ne f g).mp (by rw [filter_ne_eq_otherRoles]; exact hg)

/-- C5: the blur commit is atomic with respect to validation: when validation
of the normalized candidate fails the whole settings record is returned
unchanged, and when it succeeds only the edited field changes (to the
normalized candidate) while the other path fields and both toggles keep
their values. -/
theorem c5_blur_atomic (s : ParaManagerSettings) (f : ParaFolderField) (v : String) :
    (validateParaFolderPath (normalizeInput f v) f s ≠ none → blurStep s f v = s)
    ∧ (validateParaFolderPath (normalizeInput f v) f s = none →
        blurStep s f v = setFieldOf s f (normalizeInput f v)
        ∧ fieldOf (blurStep s f v) f = normalizeInput f v
        ∧ (∀ g, g ≠ f → fieldOf (blurStep s f v) g = fieldOf s g)
        ∧ (blurStep s f v).focusAfterArchive = s.focusAfterArchive
        ∧ (blurStep s f v).confirmBeforeArchive = s.confirmBeforeArchive) := by
  cases hv : validateParaFolderPath (normalizeInput f v) f s with
  | some e =>
    refine ⟨fun _ => by simp [blurStep, hv], fun h => absurd h (by simp)⟩
  | none =>
    refine ⟨fun h => absurd rfl h, fun _ => ?_⟩
    have hb : blurStep s f v = setFieldOf s f (normalizeInput f v) := by
      simp [blurStep, hv]
    refine ⟨hb, ?_, ?_, ?_, ?_⟩
    · rw [hb]; exact fieldOf_setFieldOf_self s f _
    · intro g hg; rw [hb]; exact fieldOf_setFieldOf_ne s f g _ hg
    · rw [hb]; exact setFieldOf_focus s f _
    · rw [hb]; exact setFieldOf_confirm s f _

/-- Witness for C5 at concrete inputs: an edit of the Projects field to
`"Areas"` is rejected and leaves the defaults unchanged, while an edit to
`" Work// "` commits its normalization into the Projects field only. -/
theorem c5_blur_atomic_witness :
    blurStep DEFAULT_SETTINGS ParaFolderField.projectsPath "Areas" = DEFAULT_SETTINGS
    ∧ blurStep DEFAULT_SETTINGS ParaFolderField.projectsPath " Work// "
        = setFieldOf DEFAULT_SETTINGS ParaFolderField.projectsPath
            (normalizeInput ParaFolderField.projectsPath " Work// ") :=
  ⟨(c5_blur_atomic DEFAULT_SETTINGS ParaFolderField.projectsPath "Areas").1 (by decide),
    ((c5_blur_atomic DEFAULT_SETTINGS ParaFolderField.projectsPath " Work// ").2 (by decide)).1⟩

/-- C6: the PathAssignment invariant (no two roles equal, no two roles
nested) is preserved by every blur-commit step, whether the edit is committed
or rejected. -/
theorem c6_blur_preserves_invariant (s : ParaManagerSettings) (f : ParaFolderField)
    (v : String) (hs : settingsValid s) : settingsValid (blurStep s f v) := by
  cases hv : validateParaFolderPath (normalizeInput f v) f s with
  | some e => simpa [blurStep, hv] using hs
  | none =>
    have hall : ∀ g, g ≠ f →
        normalizeInput f v ≠ fieldOf s g
        ∧ isNestedPath (normalizeInput f v) (fieldOf s g) = false := by
      intro g hg
      unfold validateParaFolderPath at hv
      exact (validateLoop_eq_none_iff (normalizeInput f v) f s _).mp hv g
        ((mem_filter_ne f g).mpr hg)
    have hb : blurStep s f v = setFieldOf s f (normalizeInput f v) := by
      simp [blurStep, hv]
    rw [hb]
    intro a b hab
    rcases eq_or_ne a f with rfl | ha
    · have hbf : b ≠ a := Ne.symm hab
      rw [fieldOf_setFieldOf_self, fieldOf_setFieldOf_ne _ _ _ _ hbf]
      exact hall b hbf
    · rcases eq_or_ne b f with rfl | hbf
      · rw [fieldOf_setFieldOf_ne _ _ _ _ ha, fieldOf_setFieldOf_self]
        obtain ⟨h1, h2⟩ := hall a ha
        exact ⟨fun he => h1 he.symm, by rw [isNestedPath_comm]; exact h2⟩
      · rw [fieldOf_setFieldOf_ne _ _ _ _ ha, fieldOf_setFieldOf_ne _ _ _ _ hbf]
        exact hs a b hab

/-- Witness for C6 at a concrete input: the default settings satisfy the
invariant, and it still holds after editing the Projects field. -/
theorem c6_blur_preserves_invariant_witness :
    settingsValid (blurStep DEFAULT_SETTINGS ParaFolderField.projectsPath "Work") :=
  c6_blur_preserves_invariant DEFAULT_SETTINGS ParaFolderField.projectsPath "Work"
    (by decide)

/-- C7: path nesting is a symmetric relation. -/
theorem c7_isNestedPath_symm (p q : String) : isNestedPath p q = isNestedPath q p :=
  isNestedPath_comm p q

/-- C8: a valid assignment is self-consistent: re-validating any role's own
committed path against the other three reports no conflict. -/
theorem c8_self_consistent (s : ParaManagerSettings) (f : ParaFolderField)
    (hs : settingsValid s) : validateParaFolderPath (fieldOf s f) f s = none := by
  unfold validateParaFolderPath
  rw [validateLoop_eq_none_iff]
  intro g hg
  exact hs f g (Ne.symm ((mem_filter_ne f g).mp hg))

/-- Witness for C8 at a concrete input: the default settings are valid and
re-validating the Areas path reports no conflict. -/
theorem c8_self_consistent_witness :
    validateParaFolderPath (fieldOf DEFAULT_SETTINGS ParaFolderField.areasPath)
      ParaFolderField.areasPath DEFAULT_SETTINGS = none :=
  c8_self_consistent DEFAULT_SETTINGS ParaFolderField.areasPath (by decide)

/-- C9: the blur handler normalizes before validating: the candidate handed
to validation is never empty, a whitespace-only raw input is replaced by the
role's default, a non-empty trimmed-and-stripped input is passed through
as-is, and the handler's state effect is exactly validate-then-commit on that
normalized value. -/
theorem c9_normalize_before_validate (f : ParaFolderField) (v : String) :
    normalizeInput f v ≠ ""
    ∧ ((∀ c ∈ v.data, c.isWhitespace = true) → normalizeInput f v = FOLDER_DEFAULTS f)
    ∧ (stripTrailingSlashes (jsTrim v) ≠ "" →
        normalizeInput f v = stripTrailingSlashes (jsTrim v))
    ∧ (∀ s : ParaManagerSettings, blurStep s f v =
        match validateParaFolderPath (normalizeInput f v) f s with
        | some _ => s
        | none => setFieldOf s f (normalizeInput f v)) := by
  refine ⟨?_, ?_, ?_, fun s => rfl⟩
  · unfold normalizeInput
    by_cases h : stripTrailingSlashes (jsTrim v) = ""
    · simp only [h, if_pos]
      cases f <;> decide
    · simp only [h, if_neg]
      exact h
  · intro h
    have ht : jsTrim v = "" := by
      unfold jsTrim trimRight trimLeft
      rw [List.dropWhile_eq_nil_iff.mpr h]
      rfl
    have hs0 : stripTrailingSlashes "" = "" := by decide
    unfold normalizeInput
    rw [ht]
    simp [hs0]
  · intro h
    unfold normalizeInput
    simp [h]

/-- Witness for C9 at a concrete input: a whitespace-only edit of the
Resources field is replaced by the role's default, which is non-empty. -/
theorem c9_normalize_before_validate_witness :
    normalizeInput ParaFolderField.resourcesPath "   " = "Resources"
    ∧ normalizeInput ParaFolderField.resourcesPath "   " ≠ "" := by
  have h := c9_normalize_before_validate ParaFolderField.resourcesPath "   "
  exact ⟨h.2.1 (by decide), h.1⟩

/-- C10 counterexample: the empty string is a command-line bump type other
than `patch`/`minor`/`major`, yet the script does not exit with code 1 on
it — `argv[2] || 'patch'` treats the empty (falsy) argument as missing and
performs a patch bump. -/
theorem c10_empty_bump_counterexample :
    ¬ ("" ∈ ["patch", "minor", "major"])
    ∧ releaseStep (some "") (1, 2, 3) = Except.ok "1.2.4"
    ∧ releaseStep (some "") (1, 2, 3) ≠ Except.error 1 :=
  ⟨by decide, rfl, fun h => Except.noConfusion h⟩

/-- C10 (amended): the bump is computed purely from the current
`major.minor.patch` triple — `major` yields `(major+1).0.0`, `minor` yields
`major.(minor+1).0`, `patch` yields `major.minor.(patch+1)`; any non-empty
bump type outside the three is rejected with exit code 1 independent of the
version (so before any file is read or modified), and a missing or empty
argument defaults to `patch`. -/
theorem c10_release_bump_amended (ma mi pa : Nat) :
    newVersion "major" ma mi pa = some (toString (ma + 1) ++ ".0.0")
    ∧ newVersion "minor" ma mi pa = some (toString ma ++ "." ++ toString (mi + 1) ++ ".0")
    ∧ newVersion "patch" ma mi pa
        = some (toString ma ++ "." ++ toString mi ++ "." ++ toString (pa + 1))
    ∧ (∀ bt : String, bt ∉ ["patch", "minor", "major"] → bt ≠ "" →
        releaseStep (some bt) (ma, mi, pa) = Except.error 1
        ∧ ∀ w : Nat × Nat × Nat, releaseStep (some bt) w = releaseStep (some bt) (ma, mi, pa))
    ∧ releaseStep none (ma, mi, pa) = releaseStep (some "patch") (ma, mi, pa)
    ∧ releaseStep (some "") (ma, mi, pa) = releaseStep (some "patch") (ma, mi, pa) := by
  refine ⟨rfl, rfl, rfl, ?_, rfl, rfl⟩
  intro bt hmem hne
  have hb : bumpTypeOf (some bt) = bt := by simp [bumpTypeOf, hne]
  have hm : ¬ (bt = "patch" ∨ bt = "minor" ∨ bt = "major") := by simpa using hmem
  constructor
  · simp [releaseStep, hb, hm]
  · intro w
    simp [releaseStep, hb, hm]

/-- Witness for C10 (amended) at concrete inputs: `beta` is rejected with
exit code 1 and a missing argument behaves like `patch`. -/
theorem c10_release_bump_amended_witness :
    releaseStep (some "beta") (1, 2, 3) = Except.error 1
    ∧ releaseStep none (1, 2, 3) = releaseStep (some "patch") (1, 2, 3) := by
  have h := c10_release_bump_amended 1 2 3
  exact ⟨(h.2.2.2.1 "beta" (by decide) (by decide)).1, h.2.2.2.2.1⟩

end Para
